import Mathlib

/-!
Verification development for the RRC client syncing server
(`server.js` and its two sibling variants).

The server exposes `POST /api/sync`: it authenticates via a shared
`apiKey`, checks that `data` is an array, resolves the target table name
through an identifier allow-list, then inside one transaction clears the
table and bulk-inserts the snapshot in fixed-size chunks, committing on
success and rolling back (responding 500) on any failure.

Four code variants exist in the repository:
* `handleSyncNarrow` — `src/server.js`: 4-column schema, `DELETE FROM`,
  chunk size 500, per-value sanitization `(row.x || "").toString().trim()`.
* `handleSyncWide` — first document of `src/unnamed/part_000`: 20-column
  schema, `DELETE FROM`, chunk size 100, per-column coercion
  (date passthrough / parseFloat-or-null / parseInt-or-null / trim).
* `handleSyncFlag` — second document of `src/unnamed/part_000`:
  4-column schema, clearing only when `truncateFirst` is truthy
  (`TRUNCATE`), chunk size 500, raw values.
* `handleSyncFixed` — `src/unnamed/part_001`: fixed table `rrc_clients`,
  unconditional `TRUNCATE`, chunk size 500, raw values.

JavaScript dynamic values are embedded as `JSValue` (JSON values plus
`undefined`); JS numbers are modelled as rationals, which is exact for
every decimal numeral the JSON body can carry.  Database effects are
embedded as an explicit statement list over a table state
(`Table = List (List JSValue)`), with a failure oracle standing for the
store's possible per-statement errors (constraint violations etc.), and
the transaction's rollback modelled by discarding the working state.
-/

namespace RRCSync

/-- A JavaScript value as seen in a parsed JSON request body, plus
`undefined` for absent properties.  Numbers are modelled as rationals. -/
inductive JSValue where
  | undefined
  | null
  | bool (b : Bool)
  | num (q : Rat)
  | str (s : String)
  | arr (elems : List JSValue)
  | obj (fields : List (String × JSValue))

/-- Look a key up in an object's field list (first occurrence);
absent keys read as `undefined`, as in JavaScript. -/
def getField : List (String × JSValue) → String → JSValue
  | [], _ => JSValue.undefined
  | (k, v) :: rest, key => if k = key then v else getField rest key

/-- Property access `value[key]`: throws a `TypeError` when the receiver
is `null` or `undefined`, reads the field of an object, and yields
`undefined` on any other primitive (JS auto-boxes those). -/
def getProp : JSValue → String → Except String JSValue
  | JSValue.null, key =>
      Except.error ("Cannot read properties of null (reading " ++ key ++ ")")
  | JSValue.undefined, key =>
      Except.error ("Cannot read properties of undefined (reading " ++ key ++ ")")
  | JSValue.obj fields, key => Except.ok (getField fields key)
  | _, _ => Except.ok JSValue.undefined

/-- JavaScript truthiness of a value. -/
def truthy : JSValue → Bool
  | JSValue.undefined => false
  | JSValue.null => false
  | JSValue.bool b => b
  | JSValue.num q => decide (q ≠ 0)
  | JSValue.str s => decide (s ≠ "")
  | JSValue.arr _ => true
  | JSValue.obj _ => true

/-- The JS `||` operator: the left operand when truthy, else the right. -/
def jsOr (a b : JSValue) : JSValue := if truthy a then a else b

/-- JS `String.prototype.trim`: strip whitespace from both ends
(written over the character list so that it computes by reduction). -/
def jsTrim (s : String) : String :=
  String.mk (((s.toList.dropWhile Char.isWhitespace).reverse.dropWhile
    Char.isWhitespace).reverse)

/-- Decimal expansion of the fractional remainder `r / d`, at most `fuel`
digits (long division); used to render rationals the way JS renders the
decimal numbers that occur in JSON payloads. -/
def decFracDigits : Nat → Nat → Nat → String
  | 0, _, _ => ""
  | fuel + 1, r, d =>
    if r = 0 then ""
    else
      String.singleton (Char.ofNat (48 + r * 10 / d)) ++ decFracDigits fuel (r * 10 % d) d

/-- Render a JS number as a string, as `Number.prototype.toString` does for
the plain decimal numbers representable in a JSON body. -/
def jsNumToString (q : Rat) : String :=
  let sign := if q.num < 0 then "-" else ""
  let n := q.num.natAbs
  let d := q.den
  if n % d = 0 then sign ++ toString (n / d)
  else sign ++ toString (n / d) ++ "." ++ decFracDigits 20 (n % d) d

mutual

/-- JavaScript string conversion `String(v)` / `v.toString()`. -/
def jsToString : JSValue → String
  | JSValue.undefined => "undefined"
  | JSValue.null => "null"
  | JSValue.bool b => if b then "true" else "false"
  | JSValue.num q => jsNumToString q
  | JSValue.str s => s
  | JSValue.arr l => String.intercalate "," (jsToStringArrElems l)
  | JSValue.obj _ => "[object Object]"

/-- Array elements as rendered by `Array.prototype.toString`
(`null` and `undefined` render as the empty string). -/
def jsToStringArrElems : List JSValue → List String
  | [] => []
  | JSValue.null :: rest => "" :: jsToStringArrElems rest
  | JSValue.undefined :: rest => "" :: jsToStringArrElems rest
  | v :: rest => jsToString v :: jsToStringArrElems rest

end

/-- Numeric value of a decimal digit list (most significant first). -/
def natOfDecDigits (ds : List Char) : Nat :=
  ds.foldl (fun a c => a * 10 + (c.toNat - 48)) 0

/-- Is `c` a hexadecimal digit? -/
def isHexDigit (c : Char) : Bool :=
  c.isDigit || ('a' ≤ c && c ≤ 'f') || ('A' ≤ c && c ≤ 'F')

/-- Numeric value of a hexadecimal digit. -/
def hexVal (c : Char) : Nat :=
  if c.isDigit then c.toNat - 48
  else if 'a' ≤ c ∧ c ≤ 'f' then c.toNat - 87
  else c.toNat - 55

/-- Numeric value of a hexadecimal digit list (most significant first). -/
def natOfHexDigits (ds : List Char) : Nat :=
  ds.foldl (fun a c => a * 16 + hexVal c) 0

/-- Split an optional leading sign off a character list. -/
def splitSign : List Char → Int × List Char
  | '-' :: rest => (-1, rest)
  | '+' :: rest => (1, rest)
  | cs => (1, cs)

/-- JS `parseInt(s)` (no explicit radix): skip leading whitespace, optional
sign, then either a `0x`/`0X` hexadecimal numeral or a run of decimal
digits; `none` models `NaN`. -/
def parseIntStr (s : String) : Option Int :=
  let cs := s.toList.dropWhile Char.isWhitespace
  let sc := splitSign cs
  match sc.2 with
  | '0' :: c :: rest =>
    if c = 'x' ∨ c = 'X' then
      let ds := rest.takeWhile isHexDigit
      if ds = [] then none else some (sc.1 * (natOfHexDigits ds : Int))
    else
      some (sc.1 * (natOfDecDigits (('0' :: c :: rest).takeWhile Char.isDigit) : Int))
  | cs2 =>
    let ds := cs2.takeWhile Char.isDigit
    if ds = [] then none else some (sc.1 * (natOfDecDigits ds : Int))

/-- JS `parseFloat(s)`: skip leading whitespace, optional sign, decimal
digits with an optional fraction and an optional exponent; `none` models
`NaN`. -/
def parseFloatStr (s : String) : Option Rat :=
  let cs := s.toList.dropWhile Char.isWhitespace
  let sc := splitSign cs
  let intDs := sc.2.takeWhile Char.isDigit
  let rest1 := sc.2.drop intDs.length
  let fracDs :=
    match rest1 with
    | '.' :: r => r.takeWhile Char.isDigit
    | _ => []
  let rest2 :=
    match rest1 with
    | '.' :: r => r.drop (r.takeWhile Char.isDigit).length
    | _ => rest1
  if intDs = [] ∧ fracDs = [] then none
  else
    let mant : Int := sc.1 * ((natOfDecDigits intDs * 10 ^ fracDs.length + natOfDecDigits fracDs : Nat) : Int)
    let e : Int :=
      match rest2 with
      | c :: r =>
        if c = 'e' ∨ c = 'E' then
          let esc := splitSign r
          let eds := esc.2.takeWhile Char.isDigit
          if eds = [] then 0 else esc.1 * (natOfDecDigits eds : Int)
        else 0
      | [] => 0
    if 0 ≤ e then some (mkRat (mant * 10 ^ e.toNat) (10 ^ fracDs.length))
    else some (mkRat mant (10 ^ fracDs.length * 10 ^ (-e).toNat))

/-- `parseInt` applied to an arbitrary JS value (string conversion first). -/
def parseIntJS (v : JSValue) : Option Int := parseIntStr (jsToString v)

/-- `parseFloat` applied to an arbitrary JS value (string conversion first). -/
def parseFloatJS (v : JSValue) : Option Rat := parseFloatStr (jsToString v)

/-- `isValidIdentifier` from the source: the regex
`/^[a-zA-Z0-9_]+$/.test(name)`. -/
def isValidIdentifier (name : String) : Bool :=
  !name.toList.isEmpty && name.toList.all (fun c => c.isAlpha || c.isDigit || c == '_')

/-- The relevant server environment: the configured shared secret
(`process.env.API_KEY`, possibly unset) and the default table name
(`RRC_CLIENTS_TABLE` falling back to `"rrc_clients"`). -/
structure Env where
  apiKey : Option String
  defaultTable : String
deriving Repr, DecidableEq

/-- An environment variable as a JS value: set variables are strings,
unset ones read as `undefined`. -/
def envKeyJS : Option String → JSValue
  | some s => JSValue.str s
  | none => JSValue.undefined

/-- JS strict equality `===` restricted to the comparisons the server
performs: a request value against an environment value (a string or
`undefined`). -/
def strictEqEnv (k : JSValue) : Option String → Bool
  | some s => match k with
    | JSValue.str t => t == s
    | _ => false
  | none => match k with
    | JSValue.undefined => true
    | _ => false

/-- The auth gate: `apiKey !== process.env.API_KEY` rejects, so the request
is authorized exactly when its `apiKey` strictly equals the configured
secret (both being `undefined` also passes). -/
def authOK (env : Env) (k : JSValue) : Bool := strictEqEnv k env.apiKey

/-- Target-table resolution:
`tableName && isValidIdentifier(tableName) ? tableName : DEFAULT_TABLE`
(the regex `test` stringifies its argument, and the resolved name is
interpolated into the SQL text as a string). -/
def resolveTable (defaultTable : String) (tableName : JSValue) : String :=
  if truthy tableName && isValidIdentifier (jsToString tableName) then jsToString tableName
  else defaultTable

/-- The 20 columns of the wide-schema variant, in source order
(the spellings `priorty` and `rout` are the source's). -/
def wideColumns : List String :=
  ["code", "name", "address", "branch", "district", "state", "software", "mobile",
   "installationdate", "priorty", "directdealing", "rout", "amc", "amcamt",
   "accountcode", "address3", "lictype", "clients", "sp", "nature"]

/-- The 4 columns of the narrow-schema variants. -/
def narrowColumns : List String := ["code", "name", "address", "branch"]

/-- The strict check `value === ""`. -/
def isEmptyStr : JSValue → Bool
  | JSValue.str s => s == ""
  | _ => false

/-- Per-column coercion of the wide variant:
`undefined` becomes `null`; a non-null value is passed through for
`installationdate`, coerced by `parseFloat(value) || null` for `amcamt`
(numbers pass through, `""` becomes null), by `parseInt(value) || null`
for `priorty`/`clients`/`sp`, and otherwise stringified and trimmed with
the empty string becoming null. -/
def coerceWideValue (col : String) (raw : JSValue) : JSValue :=
  let value := match raw with
    | JSValue.undefined => JSValue.null
    | v => v
  match value with
  | JSValue.null => JSValue.null
  | value =>
    if col == "installationdate" then value
    else if col == "amcamt" then
      match value with
      | JSValue.num q => JSValue.num q
      | v =>
        if isEmptyStr v then JSValue.null
        else
          match parseFloatJS v with
          | none => JSValue.null
          | some q => if q = 0 then JSValue.null else JSValue.num q
    else if col == "priorty" || col == "clients" || col == "sp" then
      match value with
      | JSValue.num q => JSValue.num q
      | v =>
        if isEmptyStr v then JSValue.null
        else
          match parseIntJS v with
          | none => JSValue.null
          | some n => if n = 0 then JSValue.null else JSValue.num (n : Rat)
    else
      let t := jsTrim (jsToString value)
      if t = "" then JSValue.null else JSValue.str t

/-- Effectful map over a list for computations that can throw
(the embedding of a `forEach` whose body may raise): stops at the first
error. -/
def mapE (f : α → Except String β) : List α → Except String (List β)
  | [] => Except.ok []
  | a :: l =>
    match f a with
    | Except.error e => Except.error e
    | Except.ok b =>
      match mapE f l with
      | Except.error e => Except.error e
      | Except.ok bs => Except.ok (b :: bs)

/-- Read the listed properties of one record (each read may throw on a
`null`/`undefined` receiver). -/
def rowProps (row : JSValue) (cols : List String) : Except String (List JSValue) :=
  mapE (fun col => getProp row col) cols

/-- `server.js` value sanitization: `(row.x || "").toString().trim()`. -/
def sanitizeNarrowValue (v : JSValue) : String :=
  jsTrim (jsToString (jsOr v (JSValue.str "")))

/-- One narrow-variant row: the four sanitized column values, in column
order. -/
def sanitizeNarrowRowE (row : JSValue) : Except String (List JSValue) :=
  mapE (fun col =>
    match getProp row col with
    | Except.error e => Except.error e
    | Except.ok v => Except.ok (JSValue.str (sanitizeNarrowValue v))) narrowColumns

/-- One raw row (`truncateFirst` and `part_001` variants): the four
column values pushed unmodified. -/
def rawRowE (row : JSValue) : Except String (List JSValue) :=
  rowProps row narrowColumns

/-- One wide-variant row: each of the 20 column values, coerced. -/
def coerceWideRowE (row : JSValue) : Except String (List JSValue) :=
  mapE (fun col =>
    match getProp row col with
    | Except.error e => Except.error e
    | Except.ok v => Except.ok (coerceWideValue col v)) wideColumns

/-- One multi-row `INSERT INTO table (columns) VALUES ...` statement:
the rows carry the bound values, one inner list per input record. -/
structure InsertStmt where
  table : String
  columns : List String
  rows : List (List JSValue)

/-- The flat positional-parameter list of an insert statement (the
`values` array the source binds to the query). -/
def InsertStmt.params (s : InsertStmt) : List JSValue := s.rows.flatten

/-- Placeholder numbers row by row, continuing a running counter, as the
source's `$1, $2, ...` numbering does. -/
def placeholderRows (start : Nat) : List (List JSValue) → List (List Nat)
  | [] => []
  | r :: rest =>
    (List.range r.length).map (fun j => start + j + 1) :: placeholderRows (start + r.length) rest

/-- The placeholder groups of an insert statement, one group per row. -/
def InsertStmt.placeholders (s : InsertStmt) : List (List Nat) := placeholderRows 0 s.rows

/-- Build the single insert statement for one chunk, evaluating the
per-row value construction (which may throw). -/
def buildInsert (rowF : JSValue → Except String (List JSValue)) (cols : List String)
    (table : String) (chunk : List JSValue) : Except String InsertStmt :=
  match mapE rowF chunk with
  | Except.error e => Except.error e
  | Except.ok rows => Except.ok ⟨table, cols, rows⟩

/-- Chunk builder of `server.js` (sanitized 4-column rows). -/
def buildNarrowInsert : String → List JSValue → Except String InsertStmt :=
  buildInsert sanitizeNarrowRowE narrowColumns

/-- Chunk builder of the wide variant (coerced 20-column rows). -/
def buildWideInsert : String → List JSValue → Except String InsertStmt :=
  buildInsert coerceWideRowE wideColumns

/-- Chunk builder of the raw variants (unmodified 4-column rows). -/
def buildRawInsert : String → List JSValue → Except String InsertStmt :=
  buildInsert rawRowE narrowColumns

/-- The chunking loop `for (let i = 0; i < data.length; i += chunkSize)`
with `data.slice(i, i + chunkSize)`, written with an explicit fuel bound
on the number of iterations so that it computes by reduction; the loop
runs at most `l.length` times, so `chunksOf` supplies that as fuel. -/
def chunksOfAux (n : Nat) : Nat → List α → List (List α)
  | 0, _ => []
  | _, [] => []
  | fuel + 1, a :: l =>
    if n = 0 then [a :: l]
    else (a :: l).take n :: chunksOfAux n fuel ((a :: l).drop n)

/-- Contiguous chunks of at most `n` elements, in input order (the
source's slice loop). -/
def chunksOf (n : Nat) (l : List α) : List (List α) := chunksOfAux n l.length l

/-- A SQL statement issued inside the sync transaction. -/
inductive Stmt where
  | deleteAll (table : String)
  | truncate (table : String)
  | insert (s : InsertStmt)

/-- A table state: its rows, each a list of column values. -/
abbrev Table := List (List JSValue)

/-- Ideal effect of a statement on the (transaction-local) table state. -/
def execStmt : Stmt → Table → Table
  | Stmt.deleteAll _, _ => []
  | Stmt.truncate _, _ => []
  | Stmt.insert s, t => t ++ s.rows

/-- An interaction of the handler with the database. -/
inductive DBAction where
  | connect
  | beginTx
  | query (s : Stmt)
  | commit
  | rollback
  | release

/-- A failure oracle: whether the store rejects a given statement in a
given state (constraint violation, connection loss, ...), and with which
error message.  `none` means the statement succeeds. -/
abbrev FailOracle := Stmt → Table → Option String

/-- The oracle under which every statement succeeds. -/
def noFail : FailOracle := fun _ _ => none

/-- Outcome of running the statements of a transaction body: the final
working state, the running inserted count and the issued queries, or the
first error together with the queries issued up to and including it. -/
inductive TxOutcome where
  | ok (t : Table) (inserted : Nat) (actions : List DBAction)
  | err (msg : String) (actions : List DBAction)

/-- Run a list of pre-built statements in order, stopping at the first
failure. -/
def runStmtList (fails : FailOracle) : List Stmt → Table → TxOutcome
  | [], t => TxOutcome.ok t 0 []
  | s :: rest, t =>
    match fails s t with
    | some m => TxOutcome.err m [DBAction.query s]
    | none =>
      match runStmtList fails rest (execStmt s t) with
      | TxOutcome.ok t2 n as => TxOutcome.ok t2 n (DBAction.query s :: as)
      | TxOutcome.err m as => TxOutcome.err m (DBAction.query s :: as)

/-- Run the per-chunk loop: build each chunk's insert statement (value
construction may throw) and issue it, accumulating the inserted count,
stopping at the first error. -/
def runChunks (build : String → List JSValue → Except String InsertStmt)
    (fails : FailOracle) (target : String) :
    List (List JSValue) → Table → Nat → TxOutcome
  | [], t, n => TxOutcome.ok t n []
  | c :: rest, t, n =>
    match build target c with
    | Except.error m => TxOutcome.err m []
    | Except.ok stmt =>
      match fails (Stmt.insert stmt) t with
      | some m => TxOutcome.err m [DBAction.query (Stmt.insert stmt)]
      | none =>
        match runChunks build fails target rest (execStmt (Stmt.insert stmt) t) (n + c.length) with
        | TxOutcome.ok t2 n2 as => TxOutcome.ok t2 n2 (DBAction.query (Stmt.insert stmt) :: as)
        | TxOutcome.err m as => TxOutcome.err m (DBAction.query (Stmt.insert stmt) :: as)

/-- The transaction body shared by all variants: the clearing
statement(s), then one insert per chunk of the snapshot. -/
def runSyncTx (build : String → List JSValue → Except String InsertStmt)
    (chunkSize : Nat) (fails : FailOracle) (clearStmts : List Stmt) (target : String)
    (data : List JSValue) (t : Table) : TxOutcome :=
  match runStmtList fails clearStmts t with
  | TxOutcome.err m as => TxOutcome.err m as
  | TxOutcome.ok t1 _ as1 =>
    match runChunks build fails target (chunksOf chunkSize data) t1 0 with
    | TxOutcome.ok t2 n as2 => TxOutcome.ok t2 n (as1 ++ as2)
    | TxOutcome.err m as2 => TxOutcome.err m (as1 ++ as2)

/-- An HTTP response of the sync endpoint. -/
structure Response where
  status : Nat
  success : Bool
  message : Option String
  insertedCount : Option Nat
deriving Repr, DecidableEq

/-- `401 {success:false, message:"Invalid API key"}`. -/
def resp401 : Response := ⟨401, false, some "Invalid API key", none⟩

/-- `400 {success:false, message:"Invalid data format"}`. -/
def resp400 : Response := ⟨400, false, some "Invalid data format", none⟩

/-- `200 {success:true, insertedCount:n}`. -/
def resp200 (n : Nat) : Response := ⟨200, true, none, some n⟩

/-- `500 {success:false, message:m}` with the underlying error text. -/
def resp500 (m : String) : Response := ⟨500, false, some m, none⟩

/-- The fields the handlers destructure from the request body; absent
fields are `undefined`. -/
structure SyncRequest where
  data : JSValue
  apiKey : JSValue
  tableName : JSValue
  truncateFirst : JSValue

/-- What a request leaves behind: the committed table contents, the HTTP
response, and the database interactions performed. -/
structure SyncOutcome where
  table : Table
  response : Response
  actions : List DBAction

/-- Turn a transaction outcome into the handler's result: on success the
working state is committed; on error the transaction is rolled back
(the committed state stays the pre-request state `t`) and the caller
receives 500 with the error's message.  The connection is released on
both paths (`finally`). -/
def respond (t : Table) (txr : TxOutcome) : SyncOutcome :=
  match txr with
  | TxOutcome.ok t2 n as =>
    ⟨t2, resp200 n,
     [DBAction.connect, DBAction.beginTx] ++ as ++ [DBAction.commit, DBAction.release]⟩
  | TxOutcome.err m as =>
    ⟨t, resp500 m,
     [DBAction.connect, DBAction.beginTx] ++ as ++ [DBAction.rollback, DBAction.release]⟩

/-- The `POST /api/sync` handler of `src/server.js`: auth check, array
check, table resolution, then `DELETE FROM` + sanitized inserts in
chunks of 500 inside one transaction. -/
def handleSyncNarrow (env : Env) (fails : FailOracle) (req : SyncRequest) (t : Table) :
    SyncOutcome :=
  if authOK env req.apiKey = false then ⟨t, resp401, []⟩
  else
    match req.data with
    | JSValue.arr data =>
      let target := resolveTable env.defaultTable req.tableName
      respond t (runSyncTx buildNarrowInsert 500 fails [Stmt.deleteAll target] target data t)
    | _ => ⟨t, resp400, []⟩

/-- The wide-schema handler (first document of `src/unnamed/part_000`):
`DELETE FROM` + coerced 20-column inserts in chunks of 100. -/
def handleSyncWide (env : Env) (fails : FailOracle) (req : SyncRequest) (t : Table) :
    SyncOutcome :=
  if authOK env req.apiKey = false then ⟨t, resp401, []⟩
  else
    match req.data with
    | JSValue.arr data =>
      let target := resolveTable env.defaultTable req.tableName
      respond t (runSyncTx buildWideInsert 100 fails [Stmt.deleteAll target] target data t)
    | _ => ⟨t, resp400, []⟩

/-- The `truncateFirst` handler (second document of
`src/unnamed/part_000`): clearing happens only when the request's
`truncateFirst` is truthy (`TRUNCATE`), then raw inserts in chunks of
500. -/
def handleSyncFlag (env : Env) (fails : FailOracle) (req : SyncRequest) (t : Table) :
    SyncOutcome :=
  if authOK env req.apiKey = false then ⟨t, resp401, []⟩
  else
    match req.data with
    | JSValue.arr data =>
      let target := resolveTable env.defaultTable req.tableName
      let clearStmts := if truthy req.truncateFirst then [Stmt.truncate target] else []
      respond t (runSyncTx buildRawInsert 500 fails clearStmts target data t)
    | _ => ⟨t, resp400, []⟩

/-- The handler of `src/unnamed/part_001`: fixed table `rrc_clients`,
unconditional `TRUNCATE`, raw inserts in chunks of 500. -/
def handleSyncFixed (env : Env) (fails : FailOracle) (req : SyncRequest) (t : Table) :
    SyncOutcome :=
  if authOK env req.apiKey = false then ⟨t, resp401, []⟩
  else
    match req.data with
    | JSValue.arr data =>
      respond t
        (runSyncTx buildRawInsert 500 fails [Stmt.truncate "rrc_clients"] "rrc_clients" data t)
    | _ => ⟨t, resp400, []⟩

/-- Example environment: secret `"k"`, default table `rrc_clients`. -/
def exEnv : Env := ⟨some "k", "rrc_clients"⟩

/-- Example record `{code:"1", name:"A", address:"X", branch:"B"}`. -/
def exRow : JSValue :=
  JSValue.obj
    [("code", JSValue.str "1"), ("name", JSValue.str "A"),
     ("address", JSValue.str "X"), ("branch", JSValue.str "B")]

/-- Example authorized request carrying `[exRow]` and no optional fields. -/
def exReq : SyncRequest :=
  ⟨JSValue.arr [exRow], JSValue.str "k", JSValue.undefined, JSValue.undefined⟩

/-- Example request with a wrong (absent) `apiKey`. -/
def exBadKeyReq : SyncRequest :=
  ⟨JSValue.arr [exRow], JSValue.undefined, JSValue.undefined, JSValue.undefined⟩

/-- Example authorized request whose `data` is an object, not an array. -/
def exBadDataReq : SyncRequest :=
  ⟨JSValue.obj [], JSValue.str "k", JSValue.undefined, JSValue.undefined⟩

/-- Example authorized request whose `data` array holds the number `5`. -/
def exNumReq : SyncRequest :=
  ⟨JSValue.arr [JSValue.num 5], JSValue.str "k", JSValue.undefined, JSValue.undefined⟩

/-- Example authorized request whose `data` array holds `null`. -/
def exNullReq : SyncRequest :=
  ⟨JSValue.arr [JSValue.null], JSValue.str "k", JSValue.undefined, JSValue.undefined⟩

/-- Example authorized request whose single record has no fields. -/
def exEmptyObjReq : SyncRequest :=
  ⟨JSValue.arr [JSValue.obj []], JSValue.str "k", JSValue.undefined, JSValue.undefined⟩

/-- A failure oracle under which every clearing statement fails with
message `"boom"` (a store that rejects the `DELETE`/`TRUNCATE`). -/
def failClear : FailOracle := fun s _ =>
  match s with
  | Stmt.deleteAll _ => some "boom"
  | Stmt.truncate _ => some "boom"
  | _ => none

/-- Is this database action an insert query? -/
def isInsertQuery : DBAction → Bool
  | DBAction.query (Stmt.insert _) => true
  | _ => false

/-- The character class of the spec's identifier pattern: an ASCII
letter, an ASCII digit, or an underscore. -/
def specIdentChar (c : Char) : Prop :=
  ('A' ≤ c ∧ c ≤ 'Z') ∨ ('a' ≤ c ∧ c ≤ 'z') ∨ ('0' ≤ c ∧ c ≤ '9') ∨ c = '_'

/-! ### Chunking lemmas -/

theorem chunksOfAux_fuelIrrel (n : Nat) :
    ∀ (f₁ f₂ : Nat) (l : List α), l.length ≤ f₁ → l.length ≤ f₂ →
      chunksOfAux n f₁ l = chunksOfAux n f₂ l := by
  intro f₁
  induction f₁ with
  | zero =>
    intro f₂ l h₁ _
    have hl : l = [] := List.eq_nil_of_length_eq_zero (Nat.le_zero.mp h₁)
    subst hl
    cases f₂ <;> rfl
  | succ f ih =>
    intro f₂ l h₁ h₂
    cases l with
    | nil => cases f₂ <;> rfl
    | cons a l' =>
      cases f₂ with
      | zero => simp at h₂
      | succ f₂' =>
        simp only [chunksOfAux]
        by_cases hn : n = 0
        · simp [hn]
        · simp only [hn, if_false]
          have hlen : ((a :: l').drop n).length ≤ f := by
            simp only [List.length_drop, List.length_cons]
            simp only [List.length_cons] at h₁
            omega
          have hlen2 : ((a :: l').drop n).length ≤ f₂' := by
            simp only [List.length_drop, List.length_cons]
            simp only [List.length_cons] at h₂
            omega
          rw [ih f₂' ((a :: l').drop n) hlen hlen2]

theorem chunksOf_nil (n : Nat) : chunksOf n ([] : List α) = [] := rfl

theorem chunksOf_cons (n : Nat) (hn : n ≠ 0) (a : α) (l : List α) :
    chunksOf n (a :: l) = (a :: l).take n :: chunksOf n ((a :: l).drop n) := by
  show chunksOfAux n (l.length + 1) (a :: l) = _
  simp only [chunksOfAux, hn, if_false]
  rw [chunksOfAux_fuelIrrel n l.length ((a :: l).drop n).length ((a :: l).drop n)]
  · rfl
  · simp only [List.length_drop, List.length_cons]; omega
  · exact le_rfl

theorem chunksOf_flatten_fuel (n : Nat) (hn : n ≠ 0) :
    ∀ (len : Nat) (l : List α), l.length ≤ len → (chunksOf n l).flatten = l := by
  intro len
  induction len with
  | zero =>
    intro l h
    have hl : l = [] := List.eq_nil_of_length_eq_zero (Nat.le_zero.mp h)
    subst hl
    rfl
  | succ k ih =>
    intro l h
    cases l with
    | nil => rfl
    | cons a l' =>
      rw [chunksOf_cons n hn, List.flatten_cons, ih ((a :: l').drop n)]
      · exact List.take_append_drop n (a :: l')
      · simp only [List.length_drop, List.length_cons]
        simp only [List.length_cons] at h
        omega

/-- Chunks concatenate back to the input, in order. -/
theorem chunksOf_flatten (n : Nat) (hn : n ≠ 0) (l : List α) :
    (chunksOf n l).flatten = l :=
  chunksOf_flatten_fuel n hn l.length l le_rfl

theorem chunksOf_mem_fuel (n : Nat) (hn : n ≠ 0) :
    ∀ (len : Nat) (l : List α), l.length ≤ len →
      ∀ c ∈ chunksOf n l, c.length ≤ n ∧ c ≠ [] := by
  intro len
  induction len with
  | zero =>
    intro l h c hc
    have hl : l = [] := List.eq_nil_of_length_eq_zero (Nat.le_zero.mp h)
    subst hl
    simp [chunksOf_nil] at hc
  | succ k ih =>
    intro l h c hc
    cases l with
    | nil => simp [chunksOf_nil] at hc
    | cons a l' =>
      rw [chunksOf_cons n hn] at hc
      rcases List.mem_cons.mp hc with hc | hc
      · subst hc
        constructor
        · simp only [List.length_take, List.length_cons]
          exact min_le_left _ _
        · cases n with
          | zero => exact absurd rfl hn
          | succ m => simp [List.take_succ_cons]
      · apply ih ((a :: l').drop n) _ c hc
        simp only [List.length_drop, List.length_cons]
        simp only [List.length_cons] at h
        omega

/-- Every chunk has at most `n` elements, and none is empty. -/
theorem chunksOf_mem (n : Nat) (hn : n ≠ 0) (l : List α) :
    ∀ c ∈ chunksOf n l, c.length ≤ n ∧ c ≠ [] :=
  chunksOf_mem_fuel n hn l.length l le_rfl

/-- Chunk lengths sum to the input length. -/
theorem chunksOf_sum_length (n : Nat) (hn : n ≠ 0) (l : List α) :
    ((chunksOf n l).map List.length).sum = l.length := by
  conv_rhs => rw [← chunksOf_flatten n hn l]
  rw [List.length_flatten]

/-! ### Lemmas about `mapE` -/

theorem mapE_ok_length (f : α → Except String β) :
    ∀ (l : List α) (bs : List β), mapE f l = Except.ok bs → bs.length = l.length := by
  intro l
  induction l with
  | nil => intro bs h; cases h; rfl
  | cons a l ih =>
    intro bs h
    simp only [mapE] at h
    cases hfa : f a with
    | error e => rw [hfa] at h; cases h
    | ok b =>
      rw [hfa] at h
      cases hrest : mapE f l with
      | error e => rw [hrest] at h; cases h
      | ok bs' =>
        rw [hrest] at h
        cases h
        simp [ih bs' hrest]

theorem mapE_ok_mem (f : α → Except String β) :
    ∀ (l : List α) (bs : List β), mapE f l = Except.ok bs →
      ∀ a ∈ l, ∃ b, f a = Except.ok b := by
  intro l
  induction l with
  | nil => intro bs _ a ha; simp at ha
  | cons x l ih =>
    intro bs h a ha
    simp only [mapE] at h
    cases hfx : f x with
    | error e => rw [hfx] at h; cases h
    | ok b =>
      rw [hfx] at h
      cases hrest : mapE f l with
      | error e => rw [hrest] at h; cases h
      | ok bs' =>
        rcases List.mem_cons.mp ha with ha | ha
        · subst ha; exact ⟨b, hfx⟩
        · exact ih bs' hrest a ha

theorem mapE_append (f : α → Except String β) (l₁ l₂ : List α) :
    mapE f (l₁ ++ l₂) =
      match mapE f l₁ with
      | Except.error m => Except.error m
      | Except.ok bs₁ =>
        match mapE f l₂ with
        | Except.error m => Except.error m
        | Except.ok bs₂ => Except.ok (bs₁ ++ bs₂) := by
  induction l₁ with
  | nil =>
    simp only [List.nil_append, mapE]
    cases mapE f l₂ <;> rfl
  | cons a l ih =>
    show mapE f (a :: (l ++ l₂)) = _
    simp only [mapE, ih]
    cases f a with
    | error e => rfl
    | ok b =>
      cases h1 : mapE f l with
      | error e => rfl
      | ok bs =>
        cases h2 : mapE f l₂ with
        | error e => rfl
        | ok bs₂ => rfl

theorem mapE_chunksOf_fuel (f : α → Except String β) (n : Nat) (hn : n ≠ 0) :
    ∀ (len : Nat) (l : List α), l.length ≤ len →
      (∀ bs, mapE f l = Except.ok bs →
        ∃ bss, mapE (mapE f) (chunksOf n l) = Except.ok bss ∧ bss.flatten = bs) ∧
      (∀ m, mapE f l = Except.error m →
        mapE (mapE f) (chunksOf n l) = Except.error m) := by
  intro len
  induction len with
  | zero =>
    intro l h
    have hl : l = [] := List.eq_nil_of_length_eq_zero (Nat.le_zero.mp h)
    subst hl
    constructor
    · intro bs hbs
      cases hbs
      exact ⟨[], rfl, rfl⟩
    · intro m hm; cases hm
  | succ k ih =>
    intro l h
    cases l with
    | nil =>
      constructor
      · intro bs hbs; cases hbs; exact ⟨[], rfl, rfl⟩
      · intro m hm; cases hm
    | cons a l' =>
      have hdrop : ((a :: l').drop n).length ≤ k := by
        simp only [List.length_drop, List.length_cons]
        simp only [List.length_cons] at h
        omega
      have hsplit := mapE_append f ((a :: l').take n) ((a :: l').drop n)
      rw [List.take_append_drop] at hsplit
      rw [chunksOf_cons n hn]
      constructor
      · intro bs hbs
        rw [hbs] at hsplit
        cases h₁ : mapE f ((a :: l').take n) with
        | error m => rw [h₁] at hsplit; cases hsplit
        | ok bs₁ =>
          rw [h₁] at hsplit
          cases h₂ : mapE f ((a :: l').drop n) with
          | error m => rw [h₂] at hsplit; cases hsplit
          | ok bs₂ =>
            rw [h₂] at hsplit
            cases hsplit
            obtain ⟨bss, hbss, hflat⟩ := (ih ((a :: l').drop n) hdrop).1 bs₂ h₂
            refine ⟨bs₁ :: bss, ?_, ?_⟩
            · simp [mapE, h₁, hbss]
            · simp [hflat]
      · intro m hm
        rw [hm] at hsplit
        cases h₁ : mapE f ((a :: l').take n) with
        | error m₁ =>
          rw [h₁] at hsplit
          cases hsplit
          simp [mapE, h₁]
        | ok bs₁ =>
          rw [h₁] at hsplit
          cases h₂ : mapE f ((a :: l').drop n) with
          | error m₂ =>
            rw [h₂] at hsplit
            cases hsplit
            have hrec := (ih ((a :: l').drop n) hdrop).2 m h₂
            simp [mapE, h₁, hrec]
          | ok bs₂ => rw [h₂] at hsplit; cases hsplit

/-- A successful element-wise run succeeds chunk-wise, producing the same
values chunk by chunk. -/
theorem mapE_chunksOf_ok (f : α → Except String β) (n : Nat) (hn : n ≠ 0)
    (l : List α) (bs : List β) (h : mapE f l = Except.ok bs) :
    ∃ bss, mapE (mapE f) (chunksOf n l) = Except.ok bss ∧ bss.flatten = bs :=
  (mapE_chunksOf_fuel f n hn l.length l le_rfl).1 bs h

/-- A failing element-wise run fails chunk-wise with the same (first)
error. -/
theorem mapE_chunksOf_err (f : α → Except String β) (n : Nat) (hn : n ≠ 0)
    (l : List α) (m : String) (h : mapE f l = Except.error m) :
    mapE (mapE f) (chunksOf n l) = Except.error m :=
  (mapE_chunksOf_fuel f n hn l.length l le_rfl).2 m h

/-! ### Lemmas about the transaction runners -/

theorem runChunks_ok_of_mapE (rowF : JSValue → Except String (List JSValue))
    (cols : List String) (target : String) :
    ∀ (chunks : List (List JSValue)) (rowss : List (List (List JSValue))),
      mapE (mapE rowF) chunks = Except.ok rowss →
      ∀ (t : Table) (n : Nat),
        runChunks (buildInsert rowF cols) noFail target chunks t n =
          TxOutcome.ok (t ++ rowss.flatten) (n + (chunks.map List.length).sum)
            (rowss.map (fun rows => DBAction.query (Stmt.insert ⟨target, cols, rows⟩))) := by
  intro chunks
  induction chunks with
  | nil =>
    intro rowss h t n
    cases h
    simp [runChunks]
  | cons c rest ih =>
    intro rowss h t n
    simp only [mapE] at h
    cases hc : mapE rowF c with
    | error e => rw [hc] at h; cases h
    | ok rows =>
      rw [hc] at h
      cases hrest : mapE (mapE rowF) rest with
      | error e => rw [hrest] at h; cases h
      | ok rowss' =>
        rw [hrest] at h
        cases h
        simp only [runChunks, buildInsert, hc, noFail]
        rw [ih rowss' hrest]
        simp [execStmt, List.append_assoc, Nat.add_assoc]

theorem runChunks_err_of_mapE (rowF : JSValue → Except String (List JSValue))
    (cols : List String) (target : String) :
    ∀ (chunks : List (List JSValue)) (m : String),
      mapE (mapE rowF) chunks = Except.error m →
      ∀ (t : Table) (n : Nat), ∃ as,
        runChunks (buildInsert rowF cols) noFail target chunks t n = TxOutcome.err m as := by
  intro chunks
  induction chunks with
  | nil => intro m h; cases h
  | cons c rest ih =>
    intro m h t n
    simp only [mapE] at h
    cases hc : mapE rowF c with
    | error e =>
      rw [hc] at h
      cases h
      exact ⟨[], by simp [runChunks, buildInsert, hc]⟩
    | ok rows =>
      rw [hc] at h
      cases hrest : mapE (mapE rowF) rest with
      | error e =>
        rw [hrest] at h
        cases h
        obtain ⟨as, has⟩ :=
          ih m hrest (execStmt (Stmt.insert ⟨target, cols, rows⟩) t) (n + c.length)
        refine ⟨DBAction.query (Stmt.insert ⟨target, cols, rows⟩) :: as, ?_⟩
        simp [runChunks, buildInsert, hc, noFail, has]
      | ok rowss' => rw [hrest] at h; cases h

theorem runChunks_ok_builds (build : String → List JSValue → Except String InsertStmt)
    (fails : FailOracle) (target : String) :
    ∀ (chunks : List (List JSValue)) (t : Table) (n : Nat) (t2 : Table) (n2 : Nat)
      (as : List DBAction),
      runChunks build fails target chunks t n = TxOutcome.ok t2 n2 as →
      ∀ c ∈ chunks, ∃ s, build target c = Except.ok s := by
  intro chunks
  induction chunks with
  | nil => intro t n t2 n2 as _ c hc; simp at hc
  | cons c0 rest ih =>
    intro t n t2 n2 as h c hc
    simp only [runChunks] at h
    cases hb : build target c0 with
    | error e => simp only [hb] at h; cases h
    | ok stmt =>
      simp only [hb] at h
      cases hf : fails (Stmt.insert stmt) t with
      | some m => simp only [hf] at h; cases h
      | none =>
        simp only [hf] at h
        rcases List.mem_cons.mp hc with hc | hc
        · subst hc; exact ⟨stmt, hb⟩
        · cases hrec : runChunks build fails target rest
              (execStmt (Stmt.insert stmt) t) (n + c0.length) with
          | ok t3 n3 as3 =>
            exact ih _ _ t3 n3 as3 hrec c hc
          | err m as3 => simp only [hrec] at h; cases h

theorem runStmtList_single_ok (fails : FailOracle) (s : Stmt) (t : Table)
    (h : fails s t = none) :
    runStmtList fails [s] t = TxOutcome.ok (execStmt s t) 0 [DBAction.query s] := by
  simp [runStmtList, h]

/-- Under the always-succeeding oracle, a sync whose per-row value
construction succeeds runs to completion: one clearing statement, one
insert per chunk, final working state exactly the constructed rows, and
inserted count the snapshot length. -/
theorem runSyncTx_ok (rowF : JSValue → Except String (List JSValue)) (cols : List String)
    (cs : Nat) (hcs : cs ≠ 0) (clear : Stmt) (hclr : ∀ u : Table, execStmt clear u = [])
    (target : String) (data : List JSValue) (bs : List (List JSValue)) (t : Table)
    (h : mapE rowF data = Except.ok bs) :
    ∃ rowss, mapE (mapE rowF) (chunksOf cs data) = Except.ok rowss ∧ rowss.flatten = bs ∧
      runSyncTx (buildInsert rowF cols) cs noFail [clear] target data t =
        TxOutcome.ok bs data.length
          (DBAction.query clear ::
            rowss.map (fun rows => DBAction.query (Stmt.insert ⟨target, cols, rows⟩))) := by
  obtain ⟨rowss, hrowss, hflat⟩ := mapE_chunksOf_ok rowF cs hcs data bs h
  refine ⟨rowss, hrowss, hflat, ?_⟩
  have hclear := runStmtList_single_ok noFail clear t rfl
  have hrun := runChunks_ok_of_mapE rowF cols target (chunksOf cs data) rowss hrowss
    (execStmt clear t) 0
  simp only [runSyncTx, hclear, hclr, hrun]
  rw [hclr] at hrun
  simp only [runSyncTx, hclear, hrun]
  simp [hflat, chunksOf_sum_length cs hcs data]

/-- Under the always-succeeding oracle, a sync whose per-row value
construction throws rolls up as a transaction error carrying that first
error's message. -/
theorem runSyncTx_err (rowF : JSValue → Except String (List JSValue)) (cols : List String)
    (cs : Nat) (hcs : cs ≠ 0) (clear : Stmt) (target : String) (data : List JSValue)
    (m : String) (t : Table) (h : mapE rowF data = Except.error m) :
    ∃ as, runSyncTx (buildInsert rowF cols) cs noFail [clear] target data t =
      TxOutcome.err m as := by
  have herr := mapE_chunksOf_err rowF cs hcs data m h
  obtain ⟨as, has⟩ := runChunks_err_of_mapE rowF cols target (chunksOf cs data) m herr
    (execStmt clear t) 0
  have hclear := runStmtList_single_ok noFail clear t rfl
  exact ⟨DBAction.query clear :: as, by simp [runSyncTx, hclear, has]⟩

/-- If the transaction body completed, every chunk's insert statement was
built successfully (so every row's value construction succeeded). -/
theorem runSyncTx_ok_builds (build : String → List JSValue → Except String InsertStmt)
    (cs : Nat) (fails : FailOracle) (clearStmts : List Stmt) (target : String)
    (data : List JSValue) (t t2 : Table) (n2 : Nat) (as : List DBAction)
    (h : runSyncTx build cs fails clearStmts target data t = TxOutcome.ok t2 n2 as) :
    ∀ c ∈ chunksOf cs data, ∃ s, build target c = Except.ok s := by
  simp only [runSyncTx] at h
  cases hcl : runStmtList fails clearStmts t with
  | err m as1 => simp only [hcl] at h; cases h
  | ok t1 n1 as1 =>
    simp only [hcl] at h
    cases hrc : runChunks build fails target (chunksOf cs data) t1 0 with
    | ok t3 n3 as3 =>
      exact runChunks_ok_builds build fails target (chunksOf cs data) t1 0 t3 n3 as3 hrc
    | err m as3 => simp only [hrc] at h; cases h

/-- Like `runSyncTx_ok` but with no clearing statement (the
`truncateFirst` variant with a falsy flag): the snapshot is appended to
the pre-request contents. -/
theorem runSyncTx_noClear_ok (rowF : JSValue → Except String (List JSValue))
    (cols : List String) (cs : Nat) (hcs : cs ≠ 0) (target : String)
    (data : List JSValue) (bs : List (List JSValue)) (t : Table)
    (h : mapE rowF data = Except.ok bs) :
    ∃ rowss, mapE (mapE rowF) (chunksOf cs data) = Except.ok rowss ∧ rowss.flatten = bs ∧
      runSyncTx (buildInsert rowF cols) cs noFail [] target data t =
        TxOutcome.ok (t ++ bs) data.length
          (rowss.map (fun rows => DBAction.query (Stmt.insert ⟨target, cols, rows⟩))) := by
  obtain ⟨rowss, hrowss, hflat⟩ := mapE_chunksOf_ok rowF cs hcs data bs h
  refine ⟨rowss, hrowss, hflat, ?_⟩
  have hrun := runChunks_ok_of_mapE rowF cols target (chunksOf cs data) rowss hrowss t 0
  simp only [runSyncTx, runStmtList, hrun]
  simp [hflat, chunksOf_sum_length cs hcs data]

/-! ### Handler-level helper lemmas -/

theorem handleSyncNarrow_authorized (env : Env) (fails : FailOracle) (req : SyncRequest)
    (t : Table) (data : List JSValue)
    (hAuth : authOK env req.apiKey = true) (hdata : req.data = JSValue.arr data) :
    handleSyncNarrow env fails req t =
      respond t (runSyncTx buildNarrowInsert 500 fails
        [Stmt.deleteAll (resolveTable env.defaultTable req.tableName)]
        (resolveTable env.defaultTable req.tableName) data t) := by
  simp [handleSyncNarrow, hAuth, hdata]

theorem handleSyncFixed_authorized (env : Env) (fails : FailOracle) (req : SyncRequest)
    (t : Table) (data : List JSValue)
    (hAuth : authOK env req.apiKey = true) (hdata : req.data = JSValue.arr data) :
    handleSyncFixed env fails req t =
      respond t (runSyncTx buildRawInsert 500 fails [Stmt.truncate "rrc_clients"]
        "rrc_clients" data t) := by
  simp [handleSyncFixed, hAuth, hdata]

theorem handleSyncFlag_authorized (env : Env) (fails : FailOracle) (req : SyncRequest)
    (t : Table) (data : List JSValue)
    (hAuth : authOK env req.apiKey = true) (hdata : req.data = JSValue.arr data) :
    handleSyncFlag env fails req t =
      respond t (runSyncTx buildRawInsert 500 fails
        (if truthy req.truncateFirst then
          [Stmt.truncate (resolveTable env.defaultTable req.tableName)] else [])
        (resolveTable env.defaultTable req.tableName) data t) := by
  simp [handleSyncFlag, hAuth, hdata]

/-- On a transaction error the handler rolls back: committed contents
unchanged, 500 with the error's own message, rollback before release. -/
theorem handleSyncNarrow_err (env : Env) (fails : FailOracle) (req : SyncRequest)
    (t : Table) (data : List JSValue) (m : String) (as : List DBAction)
    (hAuth : authOK env req.apiKey = true) (hdata : req.data = JSValue.arr data)
    (hfail : runSyncTx buildNarrowInsert 500 fails
        [Stmt.deleteAll (resolveTable env.defaultTable req.tableName)]
        (resolveTable env.defaultTable req.tableName) data t = TxOutcome.err m as) :
    handleSyncNarrow env fails req t =
      ⟨t, resp500 m,
       [DBAction.connect, DBAction.beginTx] ++ as ++ [DBAction.rollback, DBAction.release]⟩ := by
  rw [handleSyncNarrow_authorized env fails req t data hAuth hdata, hfail]
  rfl

theorem handleSyncFixed_err (env : Env) (fails : FailOracle) (req : SyncRequest)
    (t : Table) (data : List JSValue) (m : String) (as : List DBAction)
    (hAuth : authOK env req.apiKey = true) (hdata : req.data = JSValue.arr data)
    (hfail : runSyncTx buildRawInsert 500 fails [Stmt.truncate "rrc_clients"]
        "rrc_clients" data t = TxOutcome.err m as) :
    handleSyncFixed env fails req t =
      ⟨t, resp500 m,
       [DBAction.connect, DBAction.beginTx] ++ as ++ [DBAction.rollback, DBAction.release]⟩ := by
  rw [handleSyncFixed_authorized env fails req t data hAuth hdata, hfail]
  rfl

/-- On a completed transaction the handler commits the fully replaced
contents and reports the snapshot length. -/
theorem handleSyncNarrow_ok (env : Env) (req : SyncRequest) (t : Table)
    (data : List JSValue) (rows : List (List JSValue))
    (hAuth : authOK env req.apiKey = true) (hdata : req.data = JSValue.arr data)
    (hrows : mapE sanitizeNarrowRowE data = Except.ok rows) :
    ∃ rowss, mapE (mapE sanitizeNarrowRowE) (chunksOf 500 data) = Except.ok rowss ∧
      rowss.flatten = rows ∧
      handleSyncNarrow env noFail req t =
        ⟨rows, resp200 data.length,
         [DBAction.connect, DBAction.beginTx] ++
           (DBAction.query (Stmt.deleteAll (resolveTable env.defaultTable req.tableName)) ::
             rowss.map (fun rs => DBAction.query (Stmt.insert
               ⟨resolveTable env.defaultTable req.tableName, narrowColumns, rs⟩))) ++
           [DBAction.commit, DBAction.release]⟩ := by
  obtain ⟨rowss, h1, h2, h3⟩ := runSyncTx_ok sanitizeNarrowRowE narrowColumns 500 (by decide)
    (Stmt.deleteAll (resolveTable env.defaultTable req.tableName)) (fun _ => rfl)
    (resolveTable env.defaultTable req.tableName) data rows t hrows
  refine ⟨rowss, h1, h2, ?_⟩
  rw [handleSyncNarrow_authorized env noFail req t data hAuth hdata]
  rw [show buildNarrowInsert = buildInsert sanitizeNarrowRowE narrowColumns from rfl, h3]
  rfl

theorem respond_status_ne_401 (t : Table) (txr : TxOutcome) :
    (respond t txr).response.status ≠ 401 := by
  cases txr <;> simp [respond, resp200, resp500]

/-! ### Claims -/

/-- C1: for every authorized request with an array payload, if any
statement during clearing or insertion fails, the transaction is rolled
back before the response is produced (the rollback action precedes the
release, and the committed table after the failed request equals its
contents before the request), and the HTTP caller receives a 500
response whose message is the underlying error text.  Stated for the
`server.js` handler and the `part_001` handler, over an arbitrary
failure oracle. -/
theorem rollback_on_failure (env : Env) (fails : FailOracle) (req : SyncRequest) (t : Table)
    (data : List JSValue) (m m2 : String) (as as2 : List DBAction)
    (hAuth : authOK env req.apiKey = true)
    (hdata : req.data = JSValue.arr data)
    (hfailN : runSyncTx buildNarrowInsert 500 fails
        [Stmt.deleteAll (resolveTable env.defaultTable req.tableName)]
        (resolveTable env.defaultTable req.tableName) data t = TxOutcome.err m as)
    (hfailF : runSyncTx buildRawInsert 500 fails [Stmt.truncate "rrc_clients"]
        "rrc_clients" data t = TxOutcome.err m2 as2) :
    handleSyncNarrow env fails req t =
      ⟨t, resp500 m,
       [DBAction.connect, DBAction.beginTx] ++ as ++ [DBAction.rollback, DBAction.release]⟩ ∧
    handleSyncFixed env fails req t =
      ⟨t, resp500 m2,
       [DBAction.connect, DBAction.beginTx] ++ as2 ++ [DBAction.rollback, DBAction.release]⟩ :=
  ⟨handleSyncNarrow_err env fails req t data m as hAuth hdata hfailN,
   handleSyncFixed_err env fails req t data m2 as2 hAuth hdata hfailF⟩

/-- Witness for `rollback_on_failure`: a store that rejects the clearing
statement leaves the pre-request row in place and yields 500 `"boom"`
in both variants. -/
theorem rollback_on_failure_witness :
    handleSyncNarrow exEnv failClear exReq [[JSValue.str "old"]] =
      ⟨[[JSValue.str "old"]], resp500 "boom",
       [DBAction.connect, DBAction.beginTx] ++ [DBAction.query (Stmt.deleteAll "rrc_clients")] ++
         [DBAction.rollback, DBAction.release]⟩ ∧
    handleSyncFixed exEnv failClear exReq [[JSValue.str "old"]] =
      ⟨[[JSValue.str "old"]], resp500 "boom",
       [DBAction.connect, DBAction.beginTx] ++ [DBAction.query (Stmt.truncate "rrc_clients")] ++
         [DBAction.rollback, DBAction.release]⟩ :=
  rollback_on_failure exEnv failClear exReq [[JSValue.str "old"]] [exRow] "boom" "boom"
    [DBAction.query (Stmt.deleteAll "rrc_clients")] [DBAction.query (Stmt.truncate "rrc_clients")]
    rfl rfl rfl rfl

/-- C3: a request whose `apiKey` differs from the configured secret
(including a missing `apiKey`) is answered 401 `"Invalid API key"`, the
table is untouched and no database interaction happens, whatever the
payload is — the gate fires before the payload's shape is inspected. -/
theorem auth_rejects_first (env : Env) (s : String) (fails : FailOracle)
    (req : SyncRequest) (t : Table)
    (hkey : env.apiKey = some s) (hne : req.apiKey ≠ JSValue.str s) :
    handleSyncNarrow env fails req t = ⟨t, resp401, []⟩ := by
  have hauth : authOK env req.apiKey = false := by
    simp only [authOK, hkey]
    cases hk : req.apiKey with
    | str u =>
      simp only [strictEqEnv, beq_eq_false_iff_ne, ne_eq]
      intro h
      exact hne (hk.trans (by rw [h]))
    | undefined => rfl
    | null => rfl
    | bool b => rfl
    | num q => rfl
    | arr l => rfl
    | obj f => rfl
  simp [handleSyncNarrow, hauth]

/-- Witness for `auth_rejects_first`: a request with no `apiKey` against
a configured secret is answered 401 and nothing is written. -/
theorem auth_rejects_first_witness :
    handleSyncNarrow exEnv noFail exBadKeyReq [] = ⟨[], resp401, []⟩ :=
  auth_rejects_first exEnv "k" noFail exBadKeyReq [] rfl
    (fun h => JSValue.noConfusion h)

/-- C8: an authorized request whose `data` is not an array is answered
400 `"Invalid data format"` with no database interaction at all (no
connection, no transaction) and the table untouched. -/
theorem invalid_payload_400 (env : Env) (fails : FailOracle) (req : SyncRequest) (t : Table)
    (hAuth : authOK env req.apiKey = true)
    (hdata : ∀ ds, req.data ≠ JSValue.arr ds) :
    handleSyncNarrow env fails req t = ⟨t, resp400, []⟩ := by
  cases hd : req.data with
  | arr ds => exact absurd hd (hdata ds)
  | undefined => simp [handleSyncNarrow, hAuth, hd]
  | null => simp [handleSyncNarrow, hAuth, hd]
  | bool b => simp [handleSyncNarrow, hAuth, hd]
  | num q => simp [handleSyncNarrow, hAuth, hd]
  | str v => simp [handleSyncNarrow, hAuth, hd]
  | obj f => simp [handleSyncNarrow, hAuth, hd]

/-- Witness for `invalid_payload_400`: an authorized request whose
`data` is an object gets 400 and no database action. -/
theorem invalid_payload_400_witness :
    handleSyncNarrow exEnv noFail exBadDataReq [] = ⟨[], resp400, []⟩ :=
  invalid_payload_400 exEnv noFail exBadDataReq []
    rfl (fun _ h => JSValue.noConfusion h)

/-- C9: the gate authorizes exactly when the request's `apiKey` strictly
equals the configured secret; when no secret is configured
(`API_KEY` unset), a request that omits `apiKey` passes the gate
(`undefined === undefined`), so authentication protects nothing — such
requests are never answered 401. -/
theorem no_secret_auth_passes (dt : String) :
    (∀ env : Env, ∀ k, authOK env k = true ↔ k = envKeyJS env.apiKey) ∧
    (∀ k, authOK ⟨none, dt⟩ k = true ↔ k = JSValue.undefined) ∧
    (∀ (fails : FailOracle) (req : SyncRequest) (t : Table),
      req.apiKey = JSValue.undefined →
      (handleSyncNarrow ⟨none, dt⟩ fails req t).response.status ≠ 401 ∧
      (handleSyncFixed ⟨none, dt⟩ fails req t).response.status ≠ 401) := by
  have hchar : ∀ env : Env, ∀ k, authOK env k = true ↔ k = envKeyJS env.apiKey := by
    intro env k
    cases henv : env.apiKey with
    | some s =>
      simp only [authOK, henv, envKeyJS]
      cases k <;> simp [strictEqEnv]
    | none =>
      simp only [authOK, henv, envKeyJS]
      cases k <;> simp [strictEqEnv]
  refine ⟨hchar, fun k => hchar ⟨none, dt⟩ k, ?_⟩
  intro fails req t hk
  have hauth : authOK ⟨none, dt⟩ req.apiKey = true := by rw [hk]; rfl
  constructor
  · simp only [handleSyncNarrow, hauth]
    cases req.data <;> simp [respond_status_ne_401, resp400]
  · simp only [handleSyncFixed, hauth]
    cases req.data <;> simp [respond_status_ne_401, resp400]

/-- Witness for `no_secret_auth_passes`: with no configured secret, an
omitted `apiKey` authorizes, and the keyless request is not answered
401 (here its malformed payload draws the 400 instead). -/
theorem no_secret_auth_passes_witness :
    authOK ⟨none, "rrc_clients"⟩ JSValue.undefined = true ∧
    (handleSyncNarrow ⟨none, "rrc_clients"⟩ noFail
        ⟨JSValue.str "x", JSValue.undefined, JSValue.undefined, JSValue.undefined⟩
        []).response.status ≠ 401 :=
  ⟨((no_secret_auth_passes "rrc_clients").2.1 JSValue.undefined).mpr rfl,
   ((no_secret_auth_passes "rrc_clients").2.2 noFail
      ⟨JSValue.str "x", JSValue.undefined, JSValue.undefined, JSValue.undefined⟩ [] rfl).1⟩

/-- C2 counterexample: not every successful sync clears the target
table first.  In the `truncateFirst` variant a request that omits the
flag skips clearing, so replaying the same valid one-record snapshot
succeeds twice and leaves two copies of the snapshot, not one. -/
theorem replay_duplicates_counterexample :
    (handleSyncFlag exEnv noFail exReq []).response = resp200 1 ∧
    (handleSyncFlag exEnv noFail exReq []).table.length = 1 ∧
    (handleSyncFlag exEnv noFail exReq
        ((handleSyncFlag exEnv noFail exReq []).table)).response = resp200 1 ∧
    (handleSyncFlag exEnv noFail exReq
        ((handleSyncFlag exEnv noFail exReq []).table)).table.length = 2 :=
  ⟨rfl, rfl, rfl, rfl⟩

/-- C2 amended: in the variants that clear unconditionally (`DELETE` in
`server.js`, shown here) a successful sync fully replaces the table
with the sanitized snapshot, so replaying the same request is
idempotent and the final contents equal the snapshot exactly once; in
the `truncateFirst` variant this holds exactly when the flag is truthy —
when it is falsy the snapshot is appended to the existing rows, so a
replay duplicates it. -/
theorem replay_semantics (env : Env) (req : SyncRequest) (data : List JSValue)
    (rows rawRows : List (List JSValue)) (t : Table)
    (hAuth : authOK env req.apiKey = true)
    (hdata : req.data = JSValue.arr data)
    (hrows : mapE sanitizeNarrowRowE data = Except.ok rows)
    (hraw : mapE rawRowE data = Except.ok rawRows) :
    (handleSyncNarrow env noFail req t).table = rows ∧
    (handleSyncNarrow env noFail req
        ((handleSyncNarrow env noFail req t).table)).table =
      (handleSyncNarrow env noFail req t).table ∧
    (truthy req.truncateFirst = false →
      (handleSyncFlag env noFail req t).table = t ++ rawRows) ∧
    (truthy req.truncateFirst = true →
      (handleSyncFlag env noFail req t).table = rawRows) := by
  obtain ⟨rowss1, _, _, hout1⟩ := handleSyncNarrow_ok env req t data rows hAuth hdata hrows
  obtain ⟨rowss2, _, _, hout2⟩ := handleSyncNarrow_ok env req rows data rows hAuth hdata hrows
  refine ⟨by rw [hout1], by rw [hout1, hout2], ?_, ?_⟩
  · intro hflag
    obtain ⟨rowss, _, _, hrun⟩ := runSyncTx_noClear_ok rawRowE narrowColumns 500 (by decide)
      (resolveTable env.defaultTable req.tableName) data rawRows t hraw
    rw [handleSyncFlag_authorized env noFail req t data hAuth hdata, hflag]
    simp only [if_false, Bool.false_eq_true]
    rw [show buildRawInsert = buildInsert rawRowE narrowColumns from rfl, hrun]
    rfl
  · intro hflag
    obtain ⟨rowss, _, _, hrun⟩ := runSyncTx_ok rawRowE narrowColumns 500 (by decide)
      (Stmt.truncate (resolveTable env.defaultTable req.tableName)) (fun _ => rfl)
      (resolveTable env.defaultTable req.tableName) data rawRows t hraw
    rw [handleSyncFlag_authorized env noFail req t data hAuth hdata, hflag]
    simp only [if_true]
    rw [show buildRawInsert = buildInsert rawRowE narrowColumns from rfl, hrun]
    rfl

/-- Witness for `replay_semantics`: the narrow handler stores the
sanitized one-record snapshot, and the flag handler with the flag
omitted appends it to the (here empty) prior contents. -/
theorem replay_semantics_witness :
    (handleSyncNarrow exEnv noFail exReq []).table =
      [[JSValue.str "1", JSValue.str "A", JSValue.str "X", JSValue.str "B"]] ∧
    (handleSyncFlag exEnv noFail exReq []).table =
      [] ++ [[JSValue.str "1", JSValue.str "A", JSValue.str "X", JSValue.str "B"]] :=
  ⟨(replay_semantics exEnv exReq [exRow]
      [[JSValue.str "1", JSValue.str "A", JSValue.str "X", JSValue.str "B"]]
      [[JSValue.str "1", JSValue.str "A", JSValue.str "X", JSValue.str "B"]]
      [] rfl rfl (by rfl) (by rfl)).1,
   (replay_semantics exEnv exReq [exRow]
      [[JSValue.str "1", JSValue.str "A", JSValue.str "X", JSValue.str "B"]]
      [[JSValue.str "1", JSValue.str "A", JSValue.str "X", JSValue.str "B"]]
      [] rfl rfl (by rfl) (by rfl)).2.2.1 rfl⟩

/-- The validator's per-character test coincides with the spec's
character class: ASCII letter, ASCII digit, or underscore. -/
theorem identChar_iff (c : Char) :
    (c.isAlpha || c.isDigit || c == '_') = true ↔ specIdentChar c := by
  have hA : ('A' : Char).val = 65 := rfl
  have hZ : ('Z' : Char).val = 90 := rfl
  have ha : ('a' : Char).val = 97 := rfl
  have hz : ('z' : Char).val = 122 := rfl
  have h0 : ('0' : Char).val = 48 := rfl
  have h9 : ('9' : Char).val = 57 := rfl
  simp only [specIdentChar, Char.isAlpha, Char.isUpper, Char.isLower, Char.isDigit,
    Bool.or_eq_true, Bool.and_eq_true, decide_eq_true_eq, ge_iff_le, Char.le_def,
    beq_iff_eq, hA, hZ, ha, hz, h0, h9]
  tauto

/-- C4: the identifier validator accepts a candidate exactly when it is
one or more ASCII letters, digits or underscores and nothing else; an
accepted candidate becomes the target table and any other candidate is
discarded in favor of the configured default. -/
theorem identifier_allowlist (dt : String) (s : String) :
    (isValidIdentifier s = true ↔ s.toList ≠ [] ∧ ∀ c ∈ s.toList, specIdentChar c) ∧
    (isValidIdentifier s = true → resolveTable dt (JSValue.str s) = s) ∧
    (isValidIdentifier s = false → resolveTable dt (JSValue.str s) = dt) := by
  have hiff : isValidIdentifier s = true ↔
      s.toList ≠ [] ∧ ∀ c ∈ s.toList, specIdentChar c := by
    simp only [isValidIdentifier, Bool.and_eq_true, Bool.not_eq_true', List.all_eq_true]
    constructor
    · rintro ⟨h1, h2⟩
      refine ⟨?_, fun c hc => (identChar_iff c).mp (h2 c hc)⟩
      intro hnil
      rw [hnil] at h1
      cases h1
    · rintro ⟨h1, h2⟩
      refine ⟨?_, fun c hc => (identChar_iff c).mpr (h2 c hc)⟩
      cases hl : s.toList with
      | nil => exact absurd hl h1
      | cons a l => rfl
  refine ⟨hiff, ?_, ?_⟩
  · intro hv
    have hs : s ≠ "" := by
      intro h
      subst h
      exact (hiff.mp hv).1 rfl
    simp [resolveTable, truthy, jsToString, hs, hv]
  · intro hv
    simp [resolveTable, truthy, jsToString, hv]

/-- Witness for `identifier_allowlist`: `"clients_2024"` is accepted,
the injection attempt `"clients; DROP TABLE x"` falls back to the
default table. -/
theorem identifier_allowlist_witness :
    resolveTable "rrc_clients" (JSValue.str "clients_2024") = "clients_2024" ∧
    resolveTable "rrc_clients" (JSValue.str "clients; DROP TABLE x") = "rrc_clients" :=
  ⟨(identifier_allowlist "rrc_clients" "clients_2024").2.1 (by decide),
   (identifier_allowlist "rrc_clients" "clients; DROP TABLE x").2.2 (by decide)⟩

/-- C5 counterexample: the claim does not hold of the `server.js`
narrow-variant sanitization it cites.  There, a record with a missing
string field stores the empty string — `(row.x || "").toString().trim()`
— not null: syncing one empty record commits a row of four empty
strings. -/
theorem string_coercion_counterexample :
    (handleSyncNarrow exEnv noFail exEmptyObjReq []).table =
      [[JSValue.str "", JSValue.str "", JSValue.str "", JSValue.str ""]] ∧
    (handleSyncNarrow exEnv noFail exEmptyObjReq []).response = resp200 1 ∧
    JSValue.str "" ≠ JSValue.null :=
  ⟨rfl, rfl, fun h => JSValue.noConfusion h⟩

/-- C5 amended: in the wide-schema coercer the claim holds of every
string-class column — missing/undefined becomes null, any other value
is stringified and trimmed with the empty result becoming null, and
`"  Acme  "` is stored as `"Acme"`.  In the narrow `server.js` variant,
missing values (and values trimming to nothing) are instead stored as
the empty string, never as null. -/
theorem string_coercion_amended (col : String) (v : JSValue)
    (hcol : (col == "installationdate" || col == "amcamt" ||
        col == "priorty" || col == "clients" || col == "sp") = false) :
    coerceWideValue col JSValue.undefined = JSValue.null ∧
    coerceWideValue col JSValue.null = JSValue.null ∧
    (v ≠ JSValue.undefined → v ≠ JSValue.null →
      coerceWideValue col v =
        (if jsTrim (jsToString v) = "" then JSValue.null
         else JSValue.str (jsTrim (jsToString v)))) ∧
    coerceWideValue col (JSValue.str "  Acme  ") = JSValue.str "Acme" ∧
    coerceWideValue col (JSValue.str "   ") = JSValue.null ∧
    sanitizeNarrowValue JSValue.undefined = "" ∧
    sanitizeNarrowValue (JSValue.str "   ") = "" := by
  simp only [Bool.or_eq_false_iff] at hcol
  obtain ⟨⟨⟨⟨h1, h2⟩, h3⟩, h4⟩, h5⟩ := hcol
  have hgen : ∀ w : JSValue, w ≠ JSValue.undefined → w ≠ JSValue.null →
      coerceWideValue col w =
        (if jsTrim (jsToString w) = "" then JSValue.null
         else JSValue.str (jsTrim (jsToString w))) := by
    intro w hu hn
    cases w with
    | undefined => exact absurd rfl hu
    | null => exact absurd rfl hn
    | bool b => simp [coerceWideValue, h1, h2, h3, h4, h5]
    | num q => simp [coerceWideValue, h1, h2, h3, h4, h5]
    | str s => simp [coerceWideValue, h1, h2, h3, h4, h5]
    | arr l => simp [coerceWideValue, h1, h2, h3, h4, h5]
    | obj f => simp [coerceWideValue, h1, h2, h3, h4, h5]
  refine ⟨rfl, rfl, hgen v, ?_, ?_, rfl, rfl⟩
  · rw [hgen (JSValue.str "  Acme  ") (fun h => JSValue.noConfusion h)
      (fun h => JSValue.noConfusion h)]
    rfl
  · rw [hgen (JSValue.str "   ") (fun h => JSValue.noConfusion h)
      (fun h => JSValue.noConfusion h)]
    rfl

/-- Witness for `string_coercion_amended` at the `name` column and the
spec's example value. -/
theorem string_coercion_amended_witness :
    coerceWideValue "name" JSValue.undefined = JSValue.null ∧
    coerceWideValue "name" (JSValue.str "  Acme  ") = JSValue.str "Acme" :=
  ⟨(string_coercion_amended "name" JSValue.undefined rfl).1,
   (string_coercion_amended "name" JSValue.undefined rfl).2.2.2.1⟩

/-- C6: numeric coercion in the wide variant.  Already-numeric values
pass through unchanged; a missing or empty value becomes null; any
other string is parsed (`parseInt` for the integer class, `parseFloat`
for the float class) and a failed parse or a falsy zero result falls
back to null, no exception ever being raised (the coercion is a total
function).  `"42"` yields the number 42, `""` yields null, and `"3.14"`
yields the number 3.14 (= 314/100) for the float column. -/
theorem numeric_coercion :
    (∀ q : Rat, coerceWideValue "priorty" (JSValue.num q) = JSValue.num q) ∧
    (∀ q : Rat, coerceWideValue "amcamt" (JSValue.num q) = JSValue.num q) ∧
    coerceWideValue "priorty" JSValue.undefined = JSValue.null ∧
    coerceWideValue "amcamt" JSValue.undefined = JSValue.null ∧
    coerceWideValue "priorty" (JSValue.str "") = JSValue.null ∧
    coerceWideValue "amcamt" (JSValue.str "") = JSValue.null ∧
    (∀ s : String, s ≠ "" →
      coerceWideValue "priorty" (JSValue.str s) =
        (match parseIntStr s with
         | none => JSValue.null
         | some n => if n = 0 then JSValue.null else JSValue.num (n : Rat))) ∧
    (∀ s : String, s ≠ "" →
      coerceWideValue "amcamt" (JSValue.str s) =
        (match parseFloatStr s with
         | none => JSValue.null
         | some q => if q = 0 then JSValue.null else JSValue.num q)) ∧
    coerceWideValue "priorty" (JSValue.str "42") = JSValue.num 42 ∧
    coerceWideValue "amcamt" (JSValue.str "3.14") = JSValue.num (mkRat 314 100) ∧
    coerceWideValue "amcamt" (JSValue.str "abc") = JSValue.null := by
  refine ⟨fun q => rfl, fun q => rfl, rfl, rfl, rfl, rfl, ?_, ?_, ?_, ?_, ?_⟩
  · intro s hs
    have h4 : (s == "") = false := beq_eq_false_iff_ne.mpr hs
    simp [coerceWideValue, isEmptyStr, parseIntJS, jsToString, h4]
  · intro s hs
    have h4 : (s == "") = false := beq_eq_false_iff_ne.mpr hs
    simp [coerceWideValue, isEmptyStr, parseFloatJS, jsToString, h4]
  · rfl
  · rfl
  · rfl

/-- Witness for `numeric_coercion` at the nonempty string `"42"`. -/
theorem numeric_coercion_witness :
    coerceWideValue "priorty" (JSValue.str "42") =
      (match parseIntStr "42" with
       | none => JSValue.null
       | some n => if n = 0 then JSValue.null else JSValue.num (n : Rat)) :=
  (numeric_coercion.2.2.2.2.2.2.1) "42" (by decide)

theorem mapE_ok_mem_out (f : α → Except String β) :
    ∀ (l : List α) (bs : List β), mapE f l = Except.ok bs →
      ∀ b ∈ bs, ∃ a ∈ l, f a = Except.ok b := by
  intro l
  induction l with
  | nil => intro bs h b hb; cases h; simp at hb
  | cons x l ih =>
    intro bs h b hb
    simp only [mapE] at h
    cases hfx : f x with
    | error e => rw [hfx] at h; cases h
    | ok b0 =>
      rw [hfx] at h
      cases hrest : mapE f l with
      | error e => rw [hrest] at h; cases h
      | ok bs' =>
        rw [hrest] at h
        cases h
        rcases List.mem_cons.mp hb with hb | hb
        · subst hb; exact ⟨x, List.mem_cons_self x l, hfx⟩
        · obtain ⟨a, ha, hfa⟩ := ih bs' hrest b hb
          exact ⟨a, List.mem_cons_of_mem x ha, hfa⟩

theorem flatten_length_const (L : Nat) :
    ∀ (l : List (List α)), (∀ r ∈ l, r.length = L) → l.flatten.length = l.length * L := by
  intro l
  induction l with
  | nil => intro _; simp
  | cons r rest ih =>
    intro h
    simp only [List.flatten_cons, List.length_append, List.length_cons]
    rw [ih (fun r2 hr => h r2 (List.mem_cons_of_mem _ hr)), h r (List.mem_cons_self _ _)]
    ring

theorem placeholderRows_length :
    ∀ (start : Nat) (l : List (List JSValue)), (placeholderRows start l).length = l.length := by
  intro start l
  induction l generalizing start with
  | nil => rfl
  | cons r rest ih => simp [placeholderRows, ih]

theorem placeholderRows_flatten_length :
    ∀ (start : Nat) (l : List (List JSValue)),
      (placeholderRows start l).flatten.length = l.flatten.length := by
  intro start l
  induction l generalizing start with
  | nil => rfl
  | cons r rest ih =>
    simp [placeholderRows, List.flatten_cons, List.length_append, ih]

theorem countP_insert_map (target : String) (cols : List String)
    (rowss : List (List (List JSValue))) :
    List.countP isInsertQuery
      (rowss.map (fun rs => DBAction.query (Stmt.insert ⟨target, cols, rs⟩))) =
      rowss.length := by
  induction rowss with
  | nil => rfl
  | cons r rest ih => simp [List.countP_cons, isInsertQuery, ih]

/-- Shape of a successfully built insert statement: one row of values
per record of the chunk, each row one value per column, hence one
positional parameter (and one placeholder) per (row, column) pair. -/
theorem buildInsert_ok_shape (rowF : JSValue → Except String (List JSValue))
    (cols : List String) (L : Nat) (_hL : cols.length = L)
    (hrowF : ∀ r row, rowF r = Except.ok row → row.length = L)
    (target : String) (chunk : List JSValue) (stmt : InsertStmt)
    (h : buildInsert rowF cols target chunk = Except.ok stmt) :
    stmt.table = target ∧ stmt.columns = cols ∧ stmt.rows.length = chunk.length ∧
    stmt.params.length = chunk.length * L ∧
    stmt.placeholders.length = chunk.length ∧
    stmt.placeholders.flatten.length = stmt.params.length := by
  cases hm : mapE rowF chunk with
  | error e => simp only [buildInsert, hm] at h; cases h
  | ok rows =>
    simp only [buildInsert, hm] at h
    cases h
    have hlen : rows.length = chunk.length := mapE_ok_length rowF chunk rows hm
    have hall : ∀ r ∈ rows, r.length = L := by
      intro r hr
      obtain ⟨a, _, hfa⟩ := mapE_ok_mem_out rowF chunk rows hm r hr
      exact hrowF a r hfa
    refine ⟨rfl, rfl, hlen, ?_, ?_, ?_⟩
    · show rows.flatten.length = chunk.length * L
      rw [flatten_length_const L rows hall, hlen]
    · show (placeholderRows 0 rows).length = chunk.length
      rw [placeholderRows_length, hlen]
    · show (placeholderRows 0 rows).flatten.length = rows.flatten.length
      exact placeholderRows_flatten_length 0 rows

set_option maxRecDepth 8192 in
/-- C7: the batch inserter partitions the snapshot into contiguous
chunks of at most the fixed chunk size in input order (chunks
concatenate back to the input and their lengths sum to its length); a
built insert statement carries one row per record and one positional
parameter (and placeholder) per (row, column) pair — 4 columns in the
narrow schema, 20 in the wide one; a 1,234-record snapshot at chunk
size 500 makes chunks of 500, 500 and 234; and a completed narrow sync
issues exactly one insert statement per chunk and reports
`insertedCount` equal to the total number of records. -/
theorem batching_correct (n : Nat) (hn : n ≠ 0) (data : List JSValue)
    (target : String) (chunk : List JSValue) (sN sW : InsertStmt)
    (hN : buildNarrowInsert target chunk = Except.ok sN)
    (hW : buildWideInsert target chunk = Except.ok sW) :
    ((chunksOf n data).flatten = data ∧
     (∀ c ∈ chunksOf n data, c.length ≤ n ∧ c ≠ []) ∧
     ((chunksOf n data).map List.length).sum = data.length) ∧
    (sN.rows.length = chunk.length ∧ sN.params.length = chunk.length * 4 ∧
     sN.placeholders.flatten.length = sN.params.length) ∧
    (sW.rows.length = chunk.length ∧ sW.params.length = chunk.length * 20 ∧
     sW.placeholders.flatten.length = sW.params.length) ∧
    (chunksOf 500 (List.replicate 1234 (JSValue.obj []))).map List.length =
      [500, 500, 234] ∧
    (∀ (env : Env) (req : SyncRequest) (t : Table) (ds : List JSValue)
       (rows : List (List JSValue)),
      authOK env req.apiKey = true → req.data = JSValue.arr ds →
      mapE sanitizeNarrowRowE ds = Except.ok rows →
      (handleSyncNarrow env noFail req t).response.insertedCount = some ds.length ∧
      (handleSyncNarrow env noFail req t).actions.countP isInsertQuery =
        (chunksOf 500 ds).length) := by
  have hnarrow : ∀ r row, sanitizeNarrowRowE r = Except.ok row → row.length = 4 := by
    intro r row h
    exact mapE_ok_length _ narrowColumns row h
  have hwide : ∀ r row, coerceWideRowE r = Except.ok row → row.length = 20 := by
    intro r row h
    exact mapE_ok_length _ wideColumns row h
  obtain ⟨_, _, hN3, hN4, _, hN6⟩ :=
    buildInsert_ok_shape sanitizeNarrowRowE narrowColumns 4 rfl hnarrow target chunk sN hN
  obtain ⟨_, _, hW3, hW4, _, hW6⟩ :=
    buildInsert_ok_shape coerceWideRowE wideColumns 20 rfl hwide target chunk sW hW
  refine ⟨⟨chunksOf_flatten n hn data, chunksOf_mem n hn data,
      chunksOf_sum_length n hn data⟩,
    ⟨hN3, hN4, hN6⟩, ⟨hW3, hW4, hW6⟩, by decide, ?_⟩
  intro env req t ds rows hAuth hdata hrows
  obtain ⟨rowss, h1, _, hout⟩ := handleSyncNarrow_ok env req t ds rows hAuth hdata hrows
  have hcount : rowss.length = (chunksOf 500 ds).length :=
    mapE_ok_length _ (chunksOf 500 ds) rowss h1
  rw [hout]
  refine ⟨rfl, ?_⟩
  show List.countP isInsertQuery
      ([DBAction.connect, DBAction.beginTx] ++
        (DBAction.query (Stmt.deleteAll (resolveTable env.defaultTable req.tableName)) ::
          rowss.map (fun rs => DBAction.query (Stmt.insert
            ⟨resolveTable env.defaultTable req.tableName, narrowColumns, rs⟩))) ++
        [DBAction.commit, DBAction.release]) = (chunksOf 500 ds).length
  rw [List.countP_append, List.countP_append]
  have ha : List.countP isInsertQuery [DBAction.connect, DBAction.beginTx] = 0 := rfl
  have hb : List.countP isInsertQuery [DBAction.commit, DBAction.release] = 0 := rfl
  rw [ha, hb, List.countP_cons, countP_insert_map]
  have hd : isInsertQuery (DBAction.query (Stmt.deleteAll
      (resolveTable env.defaultTable req.tableName))) = false := rfl
  rw [hd, hcount]
  simp

/-- Witness for `batching_correct` at the one-record example request:
the 1,234-record chunking fact and `insertedCount = 1`. -/
theorem batching_correct_witness :
    (chunksOf 500 (List.replicate 1234 (JSValue.obj []))).map List.length =
      [500, 500, 234] ∧
    (handleSyncNarrow exEnv noFail exReq []).response.insertedCount = some 1 :=
  ⟨(batching_correct 500 (by decide) [exRow] "rrc_clients" [exRow]
      ⟨"rrc_clients", narrowColumns,
        [[JSValue.str "1", JSValue.str "A", JSValue.str "X", JSValue.str "B"]]⟩
      ⟨"rrc_clients", wideColumns,
        [[JSValue.str "1", JSValue.str "A", JSValue.str "X", JSValue.str "B"] ++
          List.replicate 16 JSValue.null]⟩
      (by rfl) (by rfl)).2.2.2.1,
   ((batching_correct 500 (by decide) [exRow] "rrc_clients" [exRow]
      ⟨"rrc_clients", narrowColumns,
        [[JSValue.str "1", JSValue.str "A", JSValue.str "X", JSValue.str "B"]]⟩
      ⟨"rrc_clients", wideColumns,
        [[JSValue.str "1", JSValue.str "A", JSValue.str "X", JSValue.str "B"] ++
          List.replicate 16 JSValue.null]⟩
      (by rfl) (by rfl)).2.2.2.2 exEnv exReq [] [exRow]
      [[JSValue.str "1", JSValue.str "A", JSValue.str "X", JSValue.str "B"]]
      rfl rfl (by rfl)).1⟩

/-- C10 counterexample: not every non-object element makes the request
fail.  For the number `5`, reading `row.code` yields `undefined`
(primitives auto-box, no throw), sanitization turns every field into
the empty string, and the narrow variant answers 200 with an inserted
row of four empty strings — not 500. -/
theorem nonobject_element_counterexample :
    (handleSyncNarrow exEnv noFail exNumReq []).response = resp200 1 ∧
    (handleSyncNarrow exEnv noFail exNumReq []).table =
      [[JSValue.str "", JSValue.str "", JSValue.str "", JSValue.str ""]] :=
  ⟨rfl, rfl⟩

/-- C10 amended: record elements are indeed never shape-validated, and
for a `null` element reading `row.code` does throw inside the open
transaction: whatever the store does elsewhere, the narrow handler then
rolls back (table unchanged) and answers 500 — never 400 — and under a
store with no failures of its own the 500 carries the `TypeError`
message.  Elements that are other primitives (numbers, strings,
booleans), however, do not throw: their fields read as `undefined` and
the request can succeed, as the counterexample shows. -/
theorem null_element_rolls_back (env : Env) (fails : FailOracle) (req : SyncRequest)
    (t : Table) (data : List JSValue)
    (hAuth : authOK env req.apiKey = true) (hdata : req.data = JSValue.arr data)
    (hnull : JSValue.null ∈ data) :
    ((handleSyncNarrow env fails req t).table = t ∧
     (handleSyncNarrow env fails req t).response.status = 500) ∧
    (handleSyncNarrow env fails req t).response.status ≠ 400 ∧
    (fails = noFail → data = [JSValue.null] →
      (handleSyncNarrow env fails req t).response =
        resp500 "Cannot read properties of null (reading code)") := by
  cases hrun : runSyncTx buildNarrowInsert 500 fails
      [Stmt.deleteAll (resolveTable env.defaultTable req.tableName)]
      (resolveTable env.defaultTable req.tableName) data t with
  | ok t2 n2 as =>
    exfalso
    have hb := runSyncTx_ok_builds buildNarrowInsert 500 fails
      [Stmt.deleteAll (resolveTable env.defaultTable req.tableName)]
      (resolveTable env.defaultTable req.tableName) data t t2 n2 as hrun
    have hmem : JSValue.null ∈ (chunksOf 500 data).flatten := by
      rw [chunksOf_flatten 500 (by decide) data]
      exact hnull
    obtain ⟨c, hc, hcn⟩ := List.mem_flatten.mp hmem
    obtain ⟨s, hs⟩ := hb c hc
    have hok : ∃ rows, mapE sanitizeNarrowRowE c = Except.ok rows := by
      cases hm : mapE sanitizeNarrowRowE c with
      | error e =>
        rw [show buildNarrowInsert = buildInsert sanitizeNarrowRowE narrowColumns
          from rfl] at hs
        simp only [buildInsert, hm] at hs
        cases hs
      | ok rows => exact ⟨rows, rfl⟩
    obtain ⟨rows, hrows⟩ := hok
    obtain ⟨row, hrow⟩ := mapE_ok_mem sanitizeNarrowRowE c rows hrows JSValue.null hcn
    rw [show sanitizeNarrowRowE JSValue.null =
      Except.error "Cannot read properties of null (reading code)" from rfl] at hrow
    cases hrow
  | err m as =>
    have hout := handleSyncNarrow_err env fails req t data m as hAuth hdata hrun
    rw [hout]
    refine ⟨⟨rfl, rfl⟩, by simp [resp500], ?_⟩
    intro hfails hdata1
    subst hfails
    subst hdata1
    obtain ⟨as2, h2⟩ := runSyncTx_err sanitizeNarrowRowE narrowColumns 500 (by decide)
      (Stmt.deleteAll (resolveTable env.defaultTable req.tableName))
      (resolveTable env.defaultTable req.tableName) [JSValue.null]
      "Cannot read properties of null (reading code)" t (by rfl)
    rw [show buildNarrowInsert = buildInsert sanitizeNarrowRowE narrowColumns
      from rfl] at hrun
    rw [hrun] at h2
    cases h2
    rfl

/-- Witness for `null_element_rolls_back`: the one-`null` snapshot
against an otherwise failure-free store. -/
theorem null_element_rolls_back_witness :
    ((handleSyncNarrow exEnv noFail exNullReq []).table = [] ∧
     (handleSyncNarrow exEnv noFail exNullReq []).response.status = 500) ∧
    (handleSyncNarrow exEnv noFail exNullReq []).response.status ≠ 400 ∧
    (noFail = noFail → [JSValue.null] = [JSValue.null] →
      (handleSyncNarrow exEnv noFail exNullReq []).response =
        resp500 "Cannot read properties of null (reading code)") :=
  null_element_rolls_back exEnv noFail exNullReq [] [JSValue.null] rfl rfl
    (List.mem_cons_self _ _)

end RRCSync
